import Mathlib

/-!
# Verification of `pkg/storage/postgres/rdsiam.go`

A shallow embedding of the RDS IAM token cache (`iam`, `newIAM`,
`iam.getRDSAuthToken`, `iam.BeforeConnect`) together with the parts of the Go
standard library it relies on (`fmt.Sprintf`, `time.Time`).

The embedding is sequential: the `sync.RWMutex` field of `iam` guards `token`
and `expiresAt` against concurrent callers and has no effect on a single
caller, so it is left out of the state.  The two external effects of
`getRDSAuthToken`, reading the clock and calling `auth.BuildAuthToken`, are
supplied by an explicit environment `Env`, and every call made to the
token-issuing collaborator is recorded in the result.
-/

namespace fmt

/-- An operand handed to `fmt.Sprintf`: a Go value together with its dynamic
type.  Only the operand types used by this package are represented. -/
inductive Arg where
  | str (s : String)
  | int (n : Int)
  deriving DecidableEq

/-- Go type name of an operand, as printed by `reflect.TypeOf(arg).String()`. -/
def Arg.typeName : Arg → String
  | .str _ => "string"
  | .int _ => "int"

/-- Default (`%v`) rendering of an operand. -/
def Arg.default : Arg → String
  | .str s => s
  | .int n => toString n

/-- Go's `(*pp).badVerb`: the text emitted when a verb does not apply to the
operand type, `%!verb(type=value)`. -/
def badVerb (verb : Char) (a : Arg) : String :=
  "%!" ++ String.singleton verb ++ "(" ++ a.typeName ++ "=" ++ a.default ++ ")"

/-- Go's `(*pp).printArg` for the verbs `v`, `s` and `d` without flags:
`%s` applies to strings, `%d` to integers, `%v` to everything; any other
pairing of verb and operand goes through `badVerb`. -/
def printArg (verb : Char) (a : Arg) : String :=
  match verb, a with
  | 'v', a => a.default
  | 's', .str s => s
  | 'd', .int n => toString n
  | c, a => badVerb c a

/-- Text appended when operands are left over after the format is consumed:
`%!(EXTRA type=value, type=value)`. -/
def extraArgs : List Arg → String
  | [] => ""
  | as => "%!(EXTRA " ++ ", ".intercalate (as.map fun a => a.typeName ++ "=" ++ a.default) ++ ")"

/-- Go's `(*pp).doPrintf` on a format without flags, width or precision:
literal characters are copied, `%%` prints a percent sign, `%c` consumes the
next operand and prints it under verb `c`. -/
def doPrintf : List Char → List Arg → String
  | [], as => extraArgs as
  | '%' :: [], as => "%!(NOVERB)" ++ extraArgs as
  | '%' :: '%' :: rest, as => "%" ++ doPrintf rest as
  | '%' :: c :: rest, [] => "%!" ++ String.singleton c ++ "(MISSING)" ++ doPrintf rest []
  | '%' :: c :: rest, a :: as => printArg c a ++ doPrintf rest as
  | c :: rest, as => String.singleton c ++ doPrintf rest as

/-- Go's `fmt.Sprintf`. -/
def Sprintf (format : String) (as : List Arg) : String :=
  doPrintf format.toList as

end fmt

namespace time

/-- A `time.Duration`: a number of nanoseconds. -/
abbrev Duration := Int

/-- A `time.Time`, as the number of nanoseconds on the clock that
`time.Now()` reads.  Values obtained from `time.Now()` carry a monotonic
reading, `Add` keeps it and `After` compares it, so instants are points on one
line; the bounded range of the Go representation is not represented.  The
zero value of the Go type is `0`. -/
abbrev Time := Int

/-- Go's `time.Second`. -/
def Second : Duration := 1000000000

/-- Go's `time.Minute`. -/
def Minute : Duration := 60 * Second

/-- Go's `Time.After`: `t.After(u)` reports whether `t` is strictly after `u`. -/
def Time.After (t u : Time) : Bool := decide (u < t)

/-- Go's `Time.Add`. -/
def Time.Add (t : Time) (d : Duration) : Time := t + d

end time

namespace postgres

open time

/-- A Go `error` value (non-nil). -/
structure Error where
  msg : String
  deriving DecidableEq

/-- A `context.Context`, passed through to the collaborator untouched. -/
structure Context where
  id : Nat
  deriving DecidableEq

/-- The `aws.CredentialsProvider` held by an `aws.Config`. -/
structure CredentialsProvider where
  id : String
  deriving DecidableEq

/-- The fields of `aws.Config` read by this package. -/
structure Config where
  Region : String
  Credentials : CredentialsProvider
  deriving DecidableEq

/-- The `iam` struct (without its mutex). -/
structure iam where
  username : String
  host : String
  port : String
  awsCfg : Config
  token : String
  expiresAt : Time
  deriving DecidableEq

/-- The arguments of one call to `auth.BuildAuthToken`. -/
structure BuildAuthTokenCall where
  ctx : Context
  endpoint : String
  region : String
  dbUser : String
  creds : CredentialsProvider
  deriving DecidableEq

/-- What the outside world supplies to one invocation of `getRDSAuthToken`:
the reading `time.Now()` gives in the freshness check (line 68), the behaviour
of `auth.BuildAuthToken` (a Go `(string, error)` pair), and the reading
`time.Now()` gives when the new expiry is computed (line 82). -/
structure Env where
  nowCheck : Time
  BuildAuthToken : Context → String → String → String → CredentialsProvider → String × Option Error
  nowStore : Time

/-- Outcome of `getRDSAuthToken`: the returned `(string, error)` pair, the
state of the receiver afterwards, and the calls made to `auth.BuildAuthToken`
in order. -/
structure TokenResult where
  token : String
  err : Option Error
  state : iam
  fetches : List BuildAuthTokenCall
  deriving DecidableEq

/-- The lifetime given to a stored token, `14 * time.Minute`. -/
def fixedLifetimeMargin : Duration := 14 * Minute

/-- The endpoint string built on line 74: `fmt.Sprintf("%s:%d", i.host, i.port)`,
where both operands are Go strings. -/
def endpoint (i : iam) : String :=
  fmt.Sprintf "%s:%d" [.str i.host, .str i.port]

/-- Embedding of `(*iam).getRDSAuthToken`. -/
def getRDSAuthToken (i : iam) (env : Env) (ctx : Context) : TokenResult :=
  if i.token ≠ "" ∧ i.expiresAt.After env.nowCheck = true then
    { token := i.token, err := none, state := i, fetches := [] }
  else
    let endpoint := endpoint i
    let call : BuildAuthTokenCall :=
      { ctx := ctx, endpoint := endpoint, region := i.awsCfg.Region,
        dbUser := i.username, creds := i.awsCfg.Credentials }
    match env.BuildAuthToken ctx endpoint i.awsCfg.Region i.username i.awsCfg.Credentials with
    | (_, some err) => { token := "", err := some err, state := i, fetches := [call] }
    | (token, none) =>
      { token := token, err := none,
        state := { i with token := token, expiresAt := env.nowStore.Add (14 * Minute) },
        fetches := [call] }


/-- The connection parameters of a `pgx.ConnConfig`. -/
structure ConnConfig where
  Host : String
  Port : Nat
  Database : String
  User : String
  Password : String
  RuntimeParams : List (String × String)
  deriving DecidableEq

/-- Outcome of `BeforeConnect`: the returned `error`, the connection
parameters behind the `conn` pointer afterwards, the state of the receiver
afterwards, and the calls made to `auth.BuildAuthToken`. -/
structure HookResult where
  err : Option Error
  conn : ConnConfig
  state : iam
  fetches : List BuildAuthTokenCall
  deriving DecidableEq

/-- Embedding of `(*iam).BeforeConnect`. -/
def BeforeConnect (i : iam) (env : Env) (ctx : Context) (conn : ConnConfig) : HookResult :=
  let r := getRDSAuthToken i env ctx
  match r.err with
  | some err => { err := some err, conn := conn, state := r.state, fetches := r.fetches }
  | none =>
    { err := none, conn := { conn with Password := r.token }, state := r.state,
      fetches := r.fetches }

/-- Embedding of `newIAM`; `LoadDefaultConfig` is the identity-resolution
collaborator `awsConfig.LoadDefaultConfig`.  The returned pair is Go's
`(*iam, error)`. -/
def newIAM (LoadDefaultConfig : Context → Config × Option Error) (ctx : Context)
    (username host port : String) : Option iam × Option Error :=
  match LoadDefaultConfig ctx with
  | (_, some err) => (none, some err)
  | (awsCfg, none) =>
    (some { username := username, host := host, port := port, awsCfg := awsCfg,
            token := "", expiresAt := 0 }, none)

/-- The stale condition: the negation of the test on line 68. -/
def stale (i : iam) (now : Time) : Prop :=
  i.token = "" ∨ i.expiresAt ≤ now

instance (i : iam) (now : Time) : Decidable (stale i now) :=
  inferInstanceAs (Decidable (i.token = "" ∨ i.expiresAt ≤ now))

/-- The call to `auth.BuildAuthToken` that the slow path makes from state `i`. -/
def fetchCall (i : iam) (ctx : Context) : BuildAuthTokenCall :=
  { ctx := ctx, endpoint := endpoint i, region := i.awsCfg.Region,
    dbUser := i.username, creds := i.awsCfg.Credentials }

/-- What `auth.BuildAuthToken` answers to the slow-path call made from state `i`. -/
def fetchAnswer (i : iam) (env : Env) (ctx : Context) : String × Option Error :=
  env.BuildAuthToken ctx (endpoint i) i.awsCfg.Region i.username i.awsCfg.Credentials

/-- Two calls of `getRDSAuthToken` in succession on the same receiver. -/
def twoCalls (i : iam) (env1 env2 : Env) (ctx : Context) : TokenResult × TokenResult :=
  let r1 := getRDSAuthToken i env1 ctx
  (r1, getRDSAuthToken r1.state env2 ctx)

/-- A successful fetch: the token the collaborator issued and the clock
reading of line 82 from which its expiry was derived. -/
structure Fetched where
  time : Time
  token : String
  deriving DecidableEq

/-- One returned value of a run of calls: the time of the call, the returned
`(string, error)` pair, and the most recent successful fetch of the run up to
and including this call (`none` while no fetch has succeeded). -/
structure Returned where
  callTime : Time
  token : String
  err : Option Error
  lastFetch : Option Fetched
  deriving DecidableEq

/-- What `auth.BuildAuthToken` answers, in the world `env`, to a recorded call. -/
def answer (env : Env) (c : BuildAuthTokenCall) : String × Option Error :=
  env.BuildAuthToken c.ctx c.endpoint c.region c.dbUser c.creds

/-- Bookkeeping of one collaborator call: when the collaborator answers with a
token and a nil error, that token has been fetched at the reading of line 82;
when it answers with an error, nothing has been fetched and the record stays
as it was.  The record is taken from the collaborator's answer alone, never
from what `getRDSAuthToken` returns. -/
def recordFetch (env : Env) (g : Option Fetched) (c : BuildAuthTokenCall) : Option Fetched :=
  match answer env c with
  | (t, none) => some { time := env.nowStore, token := t }
  | (_, some _) => g

/-- The most recent successful fetch after an invocation that made the
collaborator calls `calls` in the world `env`. -/
def lastFetchAfter (g : Option Fetched) (env : Env) (calls : List BuildAuthTokenCall) :
    Option Fetched :=
  calls.foldl (recordFetch env) g

/-- A run of successive `getRDSAuthToken` calls on one receiver, one
environment per call. -/
def observe (ctx : Context) : iam → Option Fetched → List Env → List Returned
  | _, _, [] => []
  | i, g, env :: rest =>
    let r := getRDSAuthToken i env ctx
    let g1 := lastFetchAfter g env r.fetches
    { callTime := env.nowCheck, token := r.token, err := r.err, lastFetch := g1 } ::
      observe ctx r.state g1 rest

/-- The clock never goes backwards during the run: the readings
`nowCheck`, `nowStore` of each call, taken in the order of the calls, never
decrease. -/
def NonDecreasing : List Env → Prop
  | [] => True
  | [env] => env.nowCheck ≤ env.nowStore
  | env :: next :: rest =>
    env.nowCheck ≤ env.nowStore ∧ env.nowStore ≤ next.nowCheck ∧ NonDecreasing (next :: rest)

instance NonDecreasing.decidable : (envs : List Env) → Decidable (NonDecreasing envs)
  | [] => isTrue trivial
  | [env] => inferInstanceAs (Decidable (env.nowCheck ≤ env.nowStore))
  | env :: next :: rest =>
    have : Decidable (NonDecreasing (next :: rest)) := NonDecreasing.decidable (next :: rest)
    inferInstanceAs (Decidable (env.nowCheck ≤ env.nowStore ∧ env.nowStore ≤ next.nowCheck ∧
      NonDecreasing (next :: rest)))

/-- The record `g` of the most recent successful fetch describes the cache: a
non-empty stored token is the one fetched last, and it expires one margin
after its fetch time. -/
def Stamped (i : iam) (g : Option Fetched) : Prop :=
  i.token ≠ "" →
    ∃ f, g = some { time := f, token := i.token } ∧ i.expiresAt = f + fixedLifetimeMargin

/-! ## Sample values -/

/-- A collaborator that always succeeds with the given token. -/
def issue (t : String) : Context → String → String → String → CredentialsProvider → String × Option Error :=
  fun _ _ _ _ _ => (t, none)

/-- A collaborator that always fails with the given error. -/
def refuse (e : Error) : Context → String → String → String → CredentialsProvider → String × Option Error :=
  fun _ _ _ _ _ => ("", some e)

def ctx0 : Context := { id := 0 }

def cfg0 : Config := { Region := "eu-west-1", Credentials := { id := "default" } }

/-- The state `newIAM` builds for `db.example.com:5432`. -/
def iamFresh : iam :=
  { username := "fga", host := "db.example.com", port := "5432", awsCfg := cfg0,
    token := "", expiresAt := 0 }

/-- A cache holding `T1`, stamped at `t = 0`. -/
def iamT1 : iam :=
  { username := "fga", host := "db.example.com", port := "5432", awsCfg := cfg0,
    token := "T1", expiresAt := 14 * Minute }

/-- The world at `t = 0`, issuing `T1`. -/
def envT1At0 : Env := { nowCheck := 0, BuildAuthToken := issue "T1", nowStore := 0 }

/-- The world at `t = 10min`, where a fetch would issue `T2`. -/
def envT2At10 : Env :=
  { nowCheck := 10 * Minute, BuildAuthToken := issue "T2", nowStore := 10 * Minute }

/-- The world at `t = 14min`, where a fetch would issue `T2`. -/
def envT2At14 : Env :=
  { nowCheck := 14 * Minute, BuildAuthToken := issue "T2", nowStore := 14 * Minute }

/-- The world at `t = 15min`, issuing `T2`. -/
def envT2At15 : Env :=
  { nowCheck := 15 * Minute, BuildAuthToken := issue "T2", nowStore := 15 * Minute }

/-- The world at `t = 15min`, where the collaborator fails. -/
def envFailAt15 : Env :=
  { nowCheck := 15 * Minute, BuildAuthToken := refuse { msg := "no credentials" },
    nowStore := 15 * Minute }

/-- The world at `t = 0`, where the collaborator succeeds with an empty token. -/
def envEmptyAt0 : Env := { nowCheck := 0, BuildAuthToken := issue "", nowStore := 0 }

/-- The world at `t = 10min`, where the collaborator succeeds with an empty token. -/
def envEmptyAt10 : Env :=
  { nowCheck := 10 * Minute, BuildAuthToken := issue "", nowStore := 10 * Minute }

def conn0 : ConnConfig :=
  { Host := "db.example.com", Port := 5432, Database := "fga", User := "fga",
    Password := "", RuntimeParams := [] }

end postgres

/-! ## Auxiliary facts -/

namespace fmt

theorem Sprintf_s_colon_d_strings (h p : String) :
    Sprintf "%s:%d" [.str h, .str p] = h ++ ":%!d(string=" ++ p ++ ")" := by
  simp [Sprintf, doPrintf, printArg, badVerb, Arg.typeName, Arg.default, extraArgs]
  simp only [String.append_assoc]
  rfl

end fmt

namespace postgres

open time

theorem endpoint_eq (i : iam) : endpoint i = i.host ++ ":%!d(string=" ++ i.port ++ ")" :=
  fmt.Sprintf_s_colon_d_strings i.host i.port

theorem endpoint_ne_host_colon_port (i : iam) : endpoint i ≠ i.host ++ ":" ++ i.port := by
  intro h
  have hl := congrArg String.length h
  rw [endpoint_eq] at hl
  simp only [String.length_append] at hl
  have h1 : (":%!d(string=" : String).length = 12 := by decide
  have h2 : (")" : String).length = 1 := by decide
  have h3 : (":" : String).length = 1 := by decide
  omega

theorem fixedLifetimeMargin_pos : 0 < fixedLifetimeMargin := by
  decide

theorem not_fast_of_stale {i : iam} {now : Time} (hs : stale i now) :
    ¬ (i.token ≠ "" ∧ i.expiresAt.After now = true) := by
  rintro ⟨h1, h2⟩
  rcases hs with hs | hs
  · exact h1 hs
  · simp only [Time.After, decide_eq_true_eq] at h2
    exact not_lt.mpr hs h2

theorem getRDSAuthToken_fast {i : iam} (env : Env) (ctx : Context)
    (h1 : i.token ≠ "") (h2 : env.nowCheck < i.expiresAt) :
    getRDSAuthToken i env ctx = { token := i.token, err := none, state := i, fetches := [] } := by
  have h : i.token ≠ "" ∧ i.expiresAt.After env.nowCheck = true :=
    ⟨h1, by simpa [Time.After] using h2⟩
  simp only [getRDSAuthToken, if_pos h]

theorem getRDSAuthToken_slow_ok {i : iam} {env : Env} {ctx : Context} {t : String}
    (hs : stale i env.nowCheck) (hf : fetchAnswer i env ctx = (t, none)) :
    getRDSAuthToken i env ctx =
      { token := t, err := none,
        state := { i with token := t, expiresAt := env.nowStore + fixedLifetimeMargin },
        fetches := [fetchCall i ctx] } := by
  unfold fetchAnswer at hf
  simp only [getRDSAuthToken, if_neg (not_fast_of_stale hs), hf, fetchCall, Time.Add,
    fixedLifetimeMargin]

theorem getRDSAuthToken_slow_err {i : iam} {env : Env} {ctx : Context} {t : String} {e : Error}
    (hs : stale i env.nowCheck) (hf : fetchAnswer i env ctx = (t, some e)) :
    getRDSAuthToken i env ctx =
      { token := "", err := some e, state := i, fetches := [fetchCall i ctx] } := by
  unfold fetchAnswer at hf
  simp only [getRDSAuthToken, if_neg (not_fast_of_stale hs), hf, fetchCall]

theorem stale_or_fast (i : iam) (now : Time) :
    stale i now ∨ (i.token ≠ "" ∧ now < i.expiresAt) := by
  unfold stale
  by_cases h : i.token = ""
  · exact Or.inl (Or.inl h)
  · by_cases h2 : i.expiresAt ≤ now
    · exact Or.inl (Or.inr h2)
    · exact Or.inr ⟨h, not_le.mp h2⟩

end postgres

namespace postgres

open time

theorem lastFetchAfter_nil (g : Option Fetched) (env : Env) : lastFetchAfter g env [] = g :=
  rfl

theorem lastFetchAfter_fetchCall_ok {i : iam} {env : Env} {ctx : Context} {t : String}
    (g : Option Fetched) (hf : fetchAnswer i env ctx = (t, none)) :
    lastFetchAfter g env [fetchCall i ctx] = some { time := env.nowStore, token := t } := by
  have ha : answer env (fetchCall i ctx) = (t, none) := hf
  simp only [lastFetchAfter, List.foldl_cons, List.foldl_nil, recordFetch, ha]

theorem lastFetchAfter_fetchCall_err {i : iam} {env : Env} {ctx : Context} {t : String}
    {e : Error} (g : Option Fetched) (hf : fetchAnswer i env ctx = (t, some e)) :
    lastFetchAfter g env [fetchCall i ctx] = g := by
  have ha : answer env (fetchCall i ctx) = (t, some e) := hf
  simp only [lastFetchAfter, List.foldl_cons, List.foldl_nil, recordFetch, ha]

theorem getRDSAuthToken_stamped {i : iam} {g : Option Fetched} (env : Env) (ctx : Context)
    (hinv : Stamped i g) (hclk : env.nowCheck ≤ env.nowStore) :
    Stamped (getRDSAuthToken i env ctx).state
        (lastFetchAfter g env (getRDSAuthToken i env ctx).fetches) ∧
      ((getRDSAuthToken i env ctx).err = none →
        ∃ f, lastFetchAfter g env (getRDSAuthToken i env ctx).fetches
              = some { time := f, token := (getRDSAuthToken i env ctx).token } ∧
          env.nowCheck < f + fixedLifetimeMargin) := by
  rcases stale_or_fast i env.nowCheck with hs | ⟨h1, h2⟩
  · rcases hfa : fetchAnswer i env ctx with ⟨t, _ | e⟩
    · rw [getRDSAuthToken_slow_ok hs hfa]
      simp only [lastFetchAfter_fetchCall_ok g hfa]
      refine ⟨fun _ => ⟨env.nowStore, rfl, rfl⟩, fun _ => ⟨env.nowStore, rfl, ?_⟩⟩
      have hpos := fixedLifetimeMargin_pos
      linarith
    · rw [getRDSAuthToken_slow_err hs hfa]
      simp only [lastFetchAfter_fetchCall_err g hfa]
      exact ⟨hinv, fun h => by simp at h⟩
  · rw [getRDSAuthToken_fast env ctx h1 h2]
    simp only [lastFetchAfter_nil]
    refine ⟨hinv, fun _ => ?_⟩
    obtain ⟨f, hf, hexp⟩ := hinv h1
    exact ⟨f, hf, by rw [← hexp]; exact h2⟩

theorem observe_fresh (ctx : Context) :
    ∀ (envs : List Env) (i : iam) (g : Option Fetched), Stamped i g → NonDecreasing envs →
      ∀ o ∈ observe ctx i g envs, o.err = none →
        ∃ f, o.lastFetch = some { time := f, token := o.token } ∧
          o.callTime < f + fixedLifetimeMargin := by
  intro envs
  induction envs with
  | nil =>
    intro i g _ _ o ho
    simp [observe] at ho
  | cons env rest ih =>
    intro i g hinv hclk o ho herr
    have hc : env.nowCheck ≤ env.nowStore ∧ NonDecreasing rest := by
      cases rest with
      | nil => exact ⟨hclk, trivial⟩
      | cons next rest2 => exact ⟨hclk.1, hclk.2.2⟩
    have hstep := getRDSAuthToken_stamped env ctx hinv hc.1
    simp only [observe, List.mem_cons] at ho
    rcases ho with ho | ho
    · subst ho
      exact hstep.2 herr
    · exact ih _ _ hstep.1 hc.2 o ho herr

theorem newIAM_token_empty {load : Context → Config × Option Error} {ctx : Context}
    {username host port : String} {i : iam}
    (h : newIAM load ctx username host port = (some i, none)) :
    i.token = "" ∧ i.expiresAt = 0 ∧ i.username = username ∧ i.host = host ∧ i.port = port := by
  unfold newIAM at h
  split at h
  · simp at h
  · simp only [Prod.mk.injEq, Option.some.injEq, and_true] at h
    subst h
    exact ⟨rfl, rfl, rfl, rfl, rfl⟩

end postgres

/-! ## The token cache -/

namespace postgres

open time

/-- Claim C1, evaluated on the code: for the cache built for host
`db.example.com` and port `5432`, the one endpoint string handed to
`auth.BuildAuthToken` on the slow path is `db.example.com:%!d(string=5432)`,
which is not the host followed by a colon and the port. -/
theorem getRDSAuthToken_endpoint_example (env : Env) (ctx : Context) :
    (getRDSAuthToken iamFresh env ctx).fetches.map BuildAuthTokenCall.endpoint
        = ["db.example.com:%!d(string=5432)"] ∧
      "db.example.com:%!d(string=5432)" ≠ iamFresh.host ++ ":" ++ iamFresh.port := by
  refine ⟨?_, by decide⟩
  have hs : stale iamFresh env.nowCheck := Or.inl rfl
  have he : endpoint iamFresh = "db.example.com:%!d(string=5432)" := by decide
  rcases hfa : fetchAnswer iamFresh env ctx with ⟨t, _ | e⟩
  · rw [getRDSAuthToken_slow_ok hs hfa]
    simp [fetchCall, he]
  · rw [getRDSAuthToken_slow_err hs hfa]
    simp [fetchCall, he]

/-- Claim C2: when the stored token is non-empty and `expiresAt` is strictly
later than the clock reading, `getRDSAuthToken` returns the stored token with
a nil error, calls the collaborator zero times and leaves the state as it
was; when `expiresAt` equals the clock reading, the slow path runs and the
collaborator is called. -/
theorem getRDSAuthToken_fast_path (i : iam) (env : Env) (ctx : Context) :
    (i.token ≠ "" → env.nowCheck < i.expiresAt →
        getRDSAuthToken i env ctx =
          { token := i.token, err := none, state := i, fetches := [] }) ∧
      (i.expiresAt = env.nowCheck →
        (getRDSAuthToken i env ctx).fetches = [fetchCall i ctx]) := by
  refine ⟨fun h1 h2 => getRDSAuthToken_fast env ctx h1 h2, fun h => ?_⟩
  have hs : stale i env.nowCheck := Or.inr (le_of_eq h)
  rcases hfa : fetchAnswer i env ctx with ⟨t, _ | e⟩
  · rw [getRDSAuthToken_slow_ok hs hfa]
  · rw [getRDSAuthToken_slow_err hs hfa]

theorem getRDSAuthToken_fast_path_witness :
    (iamT1.token ≠ "" ∧ envT2At10.nowCheck < iamT1.expiresAt ∧
        getRDSAuthToken iamT1 envT2At10 ctx0 =
          { token := "T1", err := none, state := iamT1, fetches := [] }) ∧
      (iamT1.expiresAt = envT2At14.nowCheck ∧
        (getRDSAuthToken iamT1 envT2At14 ctx0).fetches = [fetchCall iamT1 ctx0]) :=
  ⟨⟨by decide, by decide,
      (getRDSAuthToken_fast_path iamT1 envT2At10 ctx0).1 (by decide) (by decide)⟩,
    ⟨by decide, (getRDSAuthToken_fast_path iamT1 envT2At14 ctx0).2 (by decide)⟩⟩

/-- Claim C3: from a state whose token is empty or whose `expiresAt` is in
the past, when the collaborator answers with token `t` and a nil error,
`getRDSAuthToken` calls the collaborator exactly once and returns `t` with a
nil error. -/
theorem getRDSAuthToken_refetch (i : iam) (env : Env) (ctx : Context) (t : String)
    (hs : i.token = "" ∨ i.expiresAt < env.nowCheck)
    (hf : env.BuildAuthToken ctx (endpoint i) i.awsCfg.Region i.username i.awsCfg.Credentials
      = (t, none)) :
    (getRDSAuthToken i env ctx).fetches = [fetchCall i ctx] ∧
      (getRDSAuthToken i env ctx).fetches.length = 1 ∧
      (getRDSAuthToken i env ctx).token = t ∧
      (getRDSAuthToken i env ctx).err = none := by
  have hs2 : stale i env.nowCheck := hs.imp id le_of_lt
  rw [getRDSAuthToken_slow_ok hs2 hf]
  simp

theorem getRDSAuthToken_refetch_witness :
    (iamT1.token = "" ∨ iamT1.expiresAt < envT2At15.nowCheck) ∧
      (getRDSAuthToken iamT1 envT2At15 ctx0).fetches = [fetchCall iamT1 ctx0] ∧
      (getRDSAuthToken iamT1 envT2At15 ctx0).fetches.length = 1 ∧
      (getRDSAuthToken iamT1 envT2At15 ctx0).token = "T2" ∧
      (getRDSAuthToken iamT1 envT2At15 ctx0).err = none :=
  ⟨by decide, getRDSAuthToken_refetch iamT1 envT2At15 ctx0 "T2" (by decide) rfl⟩

/-- Claim C4: when the slow path runs and the fetch succeeds with token `t`,
the resulting state is the old one with `token = t` and
`expiresAt = now + 14 minutes`, `now` being the clock reading taken for the
store; username, host, port and the resolved identity are unchanged; the
14-minute margin is strictly below 15 minutes; a fetch stored at `t = 0`
expires at 14 minutes and one stored at 15 minutes expires at 29 minutes. -/
theorem getRDSAuthToken_stored_state (i : iam) (env : Env) (ctx : Context) (t : String)
    (hs : stale i env.nowCheck)
    (hf : env.BuildAuthToken ctx (endpoint i) i.awsCfg.Region i.username i.awsCfg.Credentials
      = (t, none)) :
    (getRDSAuthToken i env ctx).state =
        { i with token := t, expiresAt := env.nowStore + 14 * Minute } ∧
      (getRDSAuthToken i env ctx).state.username = i.username ∧
      (getRDSAuthToken i env ctx).state.host = i.host ∧
      (getRDSAuthToken i env ctx).state.port = i.port ∧
      (getRDSAuthToken i env ctx).state.awsCfg = i.awsCfg ∧
      fixedLifetimeMargin = 14 * Minute ∧
      (14 * Minute : Duration) < 15 * Minute ∧
      (env.nowStore = 0 → (getRDSAuthToken i env ctx).state.expiresAt = 14 * Minute) ∧
      (env.nowStore = 15 * Minute →
        (getRDSAuthToken i env ctx).state.expiresAt = 29 * Minute) := by
  rw [getRDSAuthToken_slow_ok hs hf]
  refine ⟨rfl, rfl, rfl, rfl, rfl, rfl, by decide, ?_, ?_⟩
  · intro h0
    simp only [h0, fixedLifetimeMargin, zero_add]
  · intro h15
    simp only [h15, fixedLifetimeMargin]
    decide

theorem getRDSAuthToken_stored_state_witness :
    stale iamT1 envT2At15.nowCheck ∧
      (getRDSAuthToken iamT1 envT2At15 ctx0).state =
        { iamT1 with token := "T2", expiresAt := 29 * Minute } :=
  ⟨by decide, by
    have h := (getRDSAuthToken_stored_state iamT1 envT2At15 ctx0 "T2" (by decide) rfl).1
    rw [h]
    decide⟩

/-- Claim C5: when the collaborator call fails with error `e`,
`getRDSAuthToken` returns the empty string together with `e` itself, the
state (token, expiresAt and identity fields) is exactly what it was, and any
later call from the resulting state behaves as it would have from the
original one. -/
theorem getRDSAuthToken_fetch_failure (i : iam) (env : Env) (ctx : Context) (t : String)
    (e : Error) (hs : stale i env.nowCheck)
    (hf : env.BuildAuthToken ctx (endpoint i) i.awsCfg.Region i.username i.awsCfg.Credentials
      = (t, some e)) :
    (getRDSAuthToken i env ctx).err = some e ∧
      (getRDSAuthToken i env ctx).token = "" ∧
      (getRDSAuthToken i env ctx).state = i ∧
      (getRDSAuthToken i env ctx).fetches = [fetchCall i ctx] ∧
      ∀ (env2 : Env) (ctx2 : Context),
        getRDSAuthToken (getRDSAuthToken i env ctx).state env2 ctx2 =
          getRDSAuthToken i env2 ctx2 := by
  rw [getRDSAuthToken_slow_err hs hf]
  exact ⟨rfl, rfl, rfl, rfl, fun _ _ => rfl⟩

theorem getRDSAuthToken_fetch_failure_witness :
    stale iamT1 envFailAt15.nowCheck ∧
      (getRDSAuthToken iamT1 envFailAt15 ctx0).err = some { msg := "no credentials" } ∧
      (getRDSAuthToken iamT1 envFailAt15 ctx0).token = "" ∧
      (getRDSAuthToken iamT1 envFailAt15 ctx0).state = iamT1 :=
  ⟨by decide, by
    have h := getRDSAuthToken_fetch_failure iamT1 envFailAt15 ctx0 ""
      { msg := "no credentials" } (by decide) rfl
    exact ⟨h.1, h.2.1, h.2.2.1⟩⟩

end postgres

/-! ## Repeated calls -/

namespace postgres

open time

/-- Claim C6 does not hold for every cache state and every successful
collaborator result: from a cache that already holds a valid token, two
calls ten minutes apart make no fetch at all; and when the collaborator
succeeds with the empty string, two calls ten minutes apart make two
fetches. -/
theorem twoCalls_fetch_count_counterexample :
    (envT2At10.nowCheck - envT1At0.nowStore < 14 * Minute ∧
        fetchAnswer iamT1 envT1At0 ctx0 = ("T1", none) ∧
        fetchAnswer iamT1 envT2At10 ctx0 = ("T2", none) ∧
        ((twoCalls iamT1 envT1At0 envT2At10 ctx0).1.fetches ++
          (twoCalls iamT1 envT1At0 envT2At10 ctx0).2.fetches).length = 0 ∧
        ((twoCalls iamT1 envT1At0 envT2At10 ctx0).1.fetches ++
          (twoCalls iamT1 envT1At0 envT2At10 ctx0).2.fetches).length ≠ 1) ∧
      (envEmptyAt10.nowCheck - envEmptyAt0.nowStore < 14 * Minute ∧
        fetchAnswer iamFresh envEmptyAt0 ctx0 = ("", none) ∧
        fetchAnswer iamFresh envEmptyAt10 ctx0 = ("", none) ∧
        ((twoCalls iamFresh envEmptyAt0 envEmptyAt10 ctx0).1.fetches ++
          (twoCalls iamFresh envEmptyAt0 envEmptyAt10 ctx0).2.fetches).length = 2 ∧
        ((twoCalls iamFresh envEmptyAt0 envEmptyAt10 ctx0).1.fetches ++
          (twoCalls iamFresh envEmptyAt0 envEmptyAt10 ctx0).2.fetches).length ≠ 1) := by
  decide

/-- Claim C6, amended: from a state that is stale at the first call (empty
token, or `expiresAt` not later than the clock reading), when the
collaborator succeeds with a non-empty token `t`, two calls in succession
with less than the 14-minute margin between the store of the first and the
check of the second make exactly one fetch in total, and both return `t`
with a nil error. -/
theorem twoCalls_one_fetch (i : iam) (env1 env2 : Env) (ctx : Context) (t : String)
    (hs : stale i env1.nowCheck)
    (hf : env1.BuildAuthToken ctx (endpoint i) i.awsCfg.Region i.username i.awsCfg.Credentials
      = (t, none))
    (ht : t ≠ "")
    (hel : env2.nowCheck - env1.nowStore < 14 * Minute) :
    ((twoCalls i env1 env2 ctx).1.fetches ++ (twoCalls i env1 env2 ctx).2.fetches).length = 1 ∧
      (twoCalls i env1 env2 ctx).2.token = (twoCalls i env1 env2 ctx).1.token ∧
      (twoCalls i env1 env2 ctx).1.token = t ∧
      (twoCalls i env1 env2 ctx).1.err = none ∧
      (twoCalls i env1 env2 ctx).2.err = none := by
  have h1 := getRDSAuthToken_slow_ok hs hf
  have hlt : env2.nowCheck < env1.nowStore + fixedLifetimeMargin := by
    have : fixedLifetimeMargin = 14 * Minute := rfl
    linarith
  have h2 : getRDSAuthToken
      { i with token := t, expiresAt := env1.nowStore + fixedLifetimeMargin } env2 ctx = _ :=
    getRDSAuthToken_fast env2 ctx ht hlt
  simp only [twoCalls, h1, h2]
  simp

theorem twoCalls_one_fetch_witness :
    stale iamFresh envT1At0.nowCheck ∧ envT2At10.nowCheck - envT1At0.nowStore < 14 * Minute ∧
      ((twoCalls iamFresh envT1At0 envT2At10 ctx0).1.fetches ++
        (twoCalls iamFresh envT1At0 envT2At10 ctx0).2.fetches).length = 1 ∧
      (twoCalls iamFresh envT1At0 envT2At10 ctx0).2.token = "T1" :=
  ⟨by decide, by decide, by
    have h := twoCalls_one_fetch iamFresh envT1At0 envT2At10 ctx0 "T1" (by decide) rfl
      (by decide) (by decide)
    exact ⟨h.1, h.2.1.trans h.2.2.1⟩⟩

/-- Claim C7: in every run of `getRDSAuthToken` calls on the state built by
`newIAM`, under a clock that never goes backwards, every call that returns
with a nil error returns the token that the collaborator issued in the most
recent successful fetch of the run, and the time of that fetch plus the
14-minute margin is strictly later than the time of the call. -/
theorem getRDSAuthToken_freshness (load : Context → Config × Option Error)
    (ctxNew ctx : Context) (username host port : String) (i : iam)
    (hnew : newIAM load ctxNew username host port = (some i, none))
    (envs : List Env) (hclk : NonDecreasing envs) :
    ∀ o ∈ observe ctx i none envs, o.err = none →
      ∃ f, o.lastFetch = some { time := f, token := o.token } ∧
        o.callTime < f + 14 * Minute := by
  have hinv : Stamped i none := fun h => absurd (newIAM_token_empty hnew).1 h
  exact observe_fresh ctx envs i none hinv hclk

theorem getRDSAuthToken_freshness_witness :
    newIAM (fun _ => (cfg0, none)) ctx0 "fga" "db.example.com" "5432" = (some iamFresh, none) ∧
      NonDecreasing [envT1At0, envT2At10, envFailAt15, envT2At15] ∧
      observe ctx0 iamFresh none [envT1At0, envT2At10, envFailAt15, envT2At15] =
        [{ callTime := 0, token := "T1", err := none,
           lastFetch := some { time := 0, token := "T1" } },
         { callTime := 10 * Minute, token := "T1", err := none,
           lastFetch := some { time := 0, token := "T1" } },
         { callTime := 15 * Minute, token := "", err := some { msg := "no credentials" },
           lastFetch := some { time := 0, token := "T1" } },
         { callTime := 15 * Minute, token := "T2", err := none,
           lastFetch := some { time := 15 * Minute, token := "T2" } }] ∧
      ∀ o ∈ observe ctx0 iamFresh none [envT1At0, envT2At10, envFailAt15, envT2At15],
        o.err = none →
          ∃ f, o.lastFetch = some { time := f, token := o.token } ∧
            o.callTime < f + 14 * Minute :=
  ⟨by decide, by decide, by decide,
    getRDSAuthToken_freshness (fun _ => (cfg0, none)) ctx0 ctx0 "fga" "db.example.com" "5432"
      iamFresh (by decide) [envT1At0, envT2At10, envFailAt15, envT2At15] (by decide)⟩

end postgres

/-! ## The connection hook -/

namespace postgres

open time

/-- Claim C8: when `getRDSAuthToken` succeeds with token `t`, `BeforeConnect`
returns a nil error and leaves the connection parameters equal to the given
ones with `Password` set to `t`; every other field is unchanged. -/
theorem BeforeConnect_success (i : iam) (env : Env) (ctx : Context) (c : ConnConfig)
    (t : String) (herr : (getRDSAuthToken i env ctx).err = none)
    (htok : (getRDSAuthToken i env ctx).token = t) :
    (BeforeConnect i env ctx c).err = none ∧
      (BeforeConnect i env ctx c).conn = { c with Password := t } ∧
      (BeforeConnect i env ctx c).conn.Password = t ∧
      (BeforeConnect i env ctx c).conn.Host = c.Host ∧
      (BeforeConnect i env ctx c).conn.Port = c.Port ∧
      (BeforeConnect i env ctx c).conn.Database = c.Database ∧
      (BeforeConnect i env ctx c).conn.User = c.User ∧
      (BeforeConnect i env ctx c).conn.RuntimeParams = c.RuntimeParams := by
  subst htok
  simp [BeforeConnect, herr]

theorem BeforeConnect_success_witness :
    (getRDSAuthToken iamFresh envT1At0 ctx0).err = none ∧
      (getRDSAuthToken iamFresh envT1At0 ctx0).token = "T1" ∧
      (BeforeConnect iamFresh envT1At0 ctx0 conn0).err = none ∧
      (BeforeConnect iamFresh envT1At0 ctx0 conn0).conn = { conn0 with Password := "T1" } :=
  ⟨by decide, by decide, by
    have h := BeforeConnect_success iamFresh envT1At0 ctx0 conn0 "T1" (by decide) (by decide)
    exact ⟨h.1, h.2.1⟩⟩

/-- Claim C9: when `getRDSAuthToken` fails with error `e`, `BeforeConnect`
returns exactly `e` and leaves the connection parameters, `Password`
included, as they were. -/
theorem BeforeConnect_failure (i : iam) (env : Env) (ctx : Context) (c : ConnConfig)
    (e : Error) (herr : (getRDSAuthToken i env ctx).err = some e) :
    (BeforeConnect i env ctx c).err = some e ∧
      (BeforeConnect i env ctx c).conn = c ∧
      (BeforeConnect i env ctx c).conn.Password = c.Password := by
  simp [BeforeConnect, herr]

theorem BeforeConnect_failure_witness :
    (getRDSAuthToken iamT1 envFailAt15 ctx0).err = some { msg := "no credentials" } ∧
      (BeforeConnect iamT1 envFailAt15 ctx0 conn0).err = some { msg := "no credentials" } ∧
      (BeforeConnect iamT1 envFailAt15 ctx0 conn0).conn = conn0 :=
  ⟨by decide, by
    have h := BeforeConnect_failure iamT1 envFailAt15 ctx0 conn0 { msg := "no credentials" }
      (by decide)
    exact ⟨h.1, h.2.1⟩⟩

end postgres
